import Mathlib

/-!
Verification development for the Cypress Autonomous Agent repository.

The JavaScript core (ProjectAnalyzer, TestStrategy, TestSpecGenerator and the
CypressAutonomousAgent pipeline controller) is shallowly embedded below.
Conventions of the embedding:

* JavaScript strings are Lean `String`; the string operations that the source
  uses (`includes`, `startsWith`, `endsWith`, `replace` with a string pattern,
  `toLowerCase`, `path.extname`) are re-implemented over `List Char` so that
  every definition evaluates by kernel reduction.  Apostrophes and braces
  inside string literals are written with `\x27`, `\x7b`, `\x7d` escapes.
* JavaScript objects used as string-keyed tables are association lists
  `List (String × _)`; `Object.entries` iteration order is the literal order.
  A truthiness test `obj[k]` on a dependency map is `value ≠ ""` for a present
  key (the empty string is the only falsy declared-version string).
* Relative filesystem paths are lists of segments (`path.join a b` appends);
  the printed form used by `includes` checks is `String.intercalate "/"`.
* Asynchronous filesystem access is an oracle (`FS`): a finite directory tree
  plus fault functions saying which primitive calls reject.  A JavaScript
  function that can throw is embedded as `Except`; the payload of `.error`
  carries the mutated-so-far record where the source mutates shared state.
-/

/-- Boolean prefix test on character lists (JavaScript `String.startsWith`). -/
def chPrefix : List Char → List Char → Bool
  | [], _ => true
  | _ :: _, [] => false
  | a :: as, b :: bs => a == b && chPrefix as bs

/-- Boolean contiguous-substring test on character lists (JavaScript `String.includes`). -/
def chInfix (pat : List Char) : List Char → Bool
  | [] => chPrefix pat []
  | c :: rest => chPrefix pat (c :: rest) || chInfix pat rest

/-- JavaScript `s.includes(sub)`. -/
def strContains (s sub : String) : Bool := chInfix sub.toList s.toList

/-- JavaScript `s.startsWith(p)`. -/
def strStartsWith (s p : String) : Bool := chPrefix p.toList s.toList

/-- Boolean suffix test on character lists. -/
def chSuffix (pat s : List Char) : Bool := chPrefix pat.reverse s.reverse

/-- JavaScript `s.endsWith(p)`. -/
def strEndsWith (s p : String) : Bool := chSuffix p.toList s.toList

/-- ASCII lower-casing of one character; the source only lower-cases script
commands, which are ASCII. -/
def charToLower (c : Char) : Char :=
  if 65 ≤ c.toNat ∧ c.toNat ≤ 90 then Char.ofNat (c.toNat + 32) else c

/-- JavaScript `s.toLowerCase()` restricted to ASCII. -/
def strToLower (s : String) : String := String.mk (s.toList.map charToLower)

/-- Replacement of the first occurrence of a pattern, on character lists.
JavaScript `s.replace(pat, repl)` with a string pattern replaces only the
first occurrence; with an empty pattern it inserts at position 0. -/
def chReplaceFirst : List Char → List Char → List Char → List Char
  | [], pat, repl => if pat.isEmpty then repl else []
  | c :: rest, pat, repl =>
      if chPrefix pat (c :: rest) then repl ++ (c :: rest).drop pat.length
      else c :: chReplaceFirst rest pat repl

/-- JavaScript `s.replace(pat, repl)` for a plain string pattern. -/
def replaceFirst (s pat repl : String) : String :=
  String.mk (chReplaceFirst s.toList pat.toList repl.toList)

/-- Node `path.extname` on a bare file name: the substring from the final dot,
empty for dotless names and for a leading-dot-only name. -/
def extname (s : String) : String :=
  let cs := s.toList
  let afterRev := cs.reverse.takeWhile (fun c => c != '.')
  if afterRev.length = cs.length then ""
  else if afterRev.length + 1 = cs.length then ""
  else String.mk ('.' :: afterRev.reverse)

/-- Splitting of a clean relative path literal such as "src/index.js" into
segments, mirroring how `path.join` composes it. -/
def splitSegsAux : List Char → List Char → List String
  | [], acc => [String.mk acc.reverse]
  | c :: rest, acc =>
      if c == '/' then String.mk acc.reverse :: splitSegsAux rest []
      else splitSegsAux rest (c :: acc)

/-- Segment list of a relative path string. -/
def splitPath (s : String) : List String := splitSegsAux s.toList []

/-- Printed form of a segment path, as the source builds it with `path.join`. -/
def pathString (segs : List String) : String := String.intercalate "/" segs

/-- First-match lookup in a string-keyed association list (a JavaScript object
literal read with bracket access). -/
def lookupAssoc {α : Type} (l : List (String × α)) (k : String) : Option α :=
  (l.find? (fun p => p.1 == k)).map (fun p => p.2)

/-! ## Data model of the Project Analyzer (src/core/ProjectAnalyzer.js) -/

/-- One entry of `analysis.projectStructure` as pushed by
`analyzeProjectStructure`: kind is the source string tag "directory" or
"file"; `extension` and `size` are present on file entries only. -/
structure StructureEntry where
  kind : String
  path : List String
  depth : Nat
  important : Bool
  extension : Option String := none
  size : Option Nat := none
deriving DecidableEq, Repr

/-- One entry of `analysis.entryPoints`: the source pushes
an object with the candidate path and a constant true flag. -/
structure EntryPoint where
  path : String
  existsOnDisk : Bool
deriving DecidableEq, Repr

/-- One entry of `analysis.testFiles` as pushed by `findExistingTests`. -/
structure TestFile where
  path : String
  type : String
  framework : String
deriving DecidableEq, Repr

/-- One entry of `analysis.buildTools` as pushed by `analyzeBuildTools`. -/
structure BuildTool where
  name : String
  configFile : String
deriving DecidableEq, Repr

/-- One value of the `analysis.executableScripts` map built by
`analyzeExecutableScripts`. -/
structure ExecScript where
  command : String
  canExecute : Bool
  type : String
deriving DecidableEq, Repr

/-- The `analysis.packageJson` summary object written by `analyzePackageJson`. -/
structure PkgMeta where
  name : Option String
  version : Option String
  description : Option String
  main : Option String
  author : Option String
deriving DecidableEq, Repr

/-- The parsed manifest as `fs.readJson` delivers it; absent maps are
normalized to empty ones by the source (the `|| \x7b\x7d` defaults). -/
structure PackageJson where
  name : Option String := none
  version : Option String := none
  description : Option String := none
  main : Option String := none
  author : Option String := none
  dependencies : List (String × String) := []
  devDependencies : List (String × String) := []
  scripts : List (String × String) := []

/-- The `Analysis` record. Fields not present in the initial object literal of
`deepAnalysis` but attached later by sub-steps (`scripts`, `packageJson`,
`testingFrameworks`, `buildScripts`) are `Option`-valued with `none` meaning
the property was never added. -/
structure Analysis where
  projectType : String := "unknown"
  framework : String := "none"
  hasPackageJson : Bool := false
  dependencies : List (String × String) := []
  devDependencies : List (String × String) := []
  dependenciesInstalled : Bool := false
  cypressInstalled : Bool := false
  projectStructure : List StructureEntry := []
  entryPoints : List EntryPoint := []
  testFiles : List TestFile := []
  buildTools : List BuildTool := []
  executableScripts : List (String × ExecScript) := []
  analysisDate : String := ""
  scripts : Option (List (String × String)) := none
  packageJson : Option PkgMeta := none
  testingFrameworks : Option (List String) := none
  buildScripts : Option (List (String × String)) := none

/-- The object literal at the top of `deepAnalysis`; `now` is the value of
`new Date().toISOString()`. -/
def initAnalysis (now : String) : Analysis := { analysisDate := now }

/-! ## Filesystem oracle -/

/-- A finite directory tree: what the repository checkout on disk contains.
Files carry their `stat.size`. -/
inductive FTree where
  | file : Nat → FTree
  | dir : List (String × FTree) → FTree

/-- Result of a successful `fs.stat`. -/
inductive FStat where
  | directory : FStat
  | file : Nat → FStat
deriving DecidableEq, Repr

/-- Lookup of the subtree at a relative segment path. -/
def lookupTree : FTree → List String → Option FTree
  | t, [] => some t
  | .file _, _ :: _ => none
  | .dir items, seg :: rest =>
      match lookupAssoc items seg with
      | some t => lookupTree t rest
      | none => none

/-- The filesystem oracle a `deepAnalysis` run consumes: the direct tree plus
fault functions telling which primitive promises reject, and the result of
the single `fs.readJson` of the manifest. -/
structure FS where
  tree : FTree
  readdirFault : List String → Bool
  statFault : List String → Bool
  pathExistsFault : List String → Bool
  readJsonResult : Except Unit PackageJson

/-- Oracle for `fs.pathExists`; a rejection is modelled as `.error`. -/
def pathExistsE (fs : FS) (p : List String) : Except Unit Bool :=
  if fs.pathExistsFault p then .error () else .ok (lookupTree fs.tree p).isSome

/-- Oracle for `fs.stat`; rejects on injected fault or on a missing path. -/
def statE (fs : FS) (p : List String) : Except Unit FStat :=
  if fs.statFault p then .error ()
  else
    match lookupTree fs.tree p with
    | some (.dir _) => .ok .directory
    | some (.file n) => .ok (.file n)
    | none => .error ()

/-- Oracle for `fs.readdir`; rejects on injected fault, a missing path, or a
non-directory path. -/
def readdirE (fs : FS) (p : List String) : Except Unit (List String) :=
  if fs.readdirFault p then .error ()
  else
    match lookupTree fs.tree p with
    | some (.dir items) => .ok (items.map (fun e => e.1))
    | _ => .error ()

/-! ## ProjectAnalyzer: manifest and installed-dependency analysis -/

/-- Combined dependency map lookup: `\x7b...dependencies, ...devDependencies\x7d`
gives a dev entry precedence over a regular one with the same key. -/
def allDepsLookup (deps devDeps : List (String × String)) (k : String) : Option String :=
  match lookupAssoc devDeps k with
  | some v => some v
  | none => lookupAssoc deps k

/-- Truthiness of `allDeps[k]` in the source: the key is present and its
declared version string is non-empty (the only falsy string is ""). -/
def truthyDep (deps devDeps : List (String × String)) (k : String) : Bool :=
  match allDepsLookup deps devDeps k with
  | some v => v != ""
  | none => false

/-- Truthiness of `allDeps[k]` for the combined map of one analysis. -/
def truthyHas (a : Analysis) (k : String) : Bool :=
  truthyDep a.dependencies a.devDependencies k

/-- The `analyzePackageJson` sub-step.  The `fs.pathExists` await is outside
any try block, so its rejection escapes to the caller with no field written;
an unreadable manifest is caught locally and leaves the record unchanged. -/
def analyzePackageJsonStep (fs : FS) (a : Analysis) : Except Analysis Analysis :=
  match pathExistsE fs ["package.json"] with
  | .error _ => .error a
  | .ok false => .ok a
  | .ok true =>
      match fs.readJsonResult with
      | .error _ => .ok a
      | .ok pkg =>
          .ok { a with
                hasPackageJson := true
                dependencies := pkg.dependencies
                devDependencies := pkg.devDependencies
                scripts := some pkg.scripts
                packageJson := some ⟨pkg.name, pkg.version, pkg.description, pkg.main, pkg.author⟩ }

/-- The fixed keyword set of `canExecuteScript`. -/
def executablePatterns : List String :=
  ["start", "dev", "serve", "build", "test", "cypress", "lint",
   "typecheck", "storybook", "compile", "deploy"]

/-- The `canExecuteScript` predicate: some keyword occurs in the lower-cased
command. -/
def canExecuteScript (command : String) : Bool :=
  executablePatterns.any (fun pattern => strContains (strToLower command) pattern)

/-- The `getScriptType` classifier. -/
def getScriptType (scriptName command : String) : String :=
  if strContains scriptName "test" || strContains command "test" then "test"
  else if strContains scriptName "build" || strContains command "build" then "build"
  else if strContains scriptName "start" || strContains command "start" then "start"
  else if strContains scriptName "dev" || strContains command "dev" then "dev"
  else if strContains scriptName "cypress" || strContains command "cypress" then "cypress"
  else if strContains scriptName "lint" then "lint"
  else "other"

/-- The `analyzeExecutableScripts` map builder. -/
def analyzeExecutableScripts (scripts : List (String × String)) : List (String × ExecScript) :=
  scripts.map (fun p => (p.1, ⟨p.2, canExecuteScript p.2, getScriptType p.1 p.2⟩))

/-- The fixed `testingLibs` table of `detectTestingFrameworks`. -/
def testingLibs : List (String × String) :=
  [("cypress", "Cypress"), ("jest", "Jest"), ("mocha", "Mocha"),
   ("jasmine", "Jasmine"), ("vitest", "Vitest"),
   ("@testing-library/react", "Testing Library React"),
   ("@testing-library/vue", "Testing Library Vue"),
   ("@testing-library/angular", "Testing Library Angular"),
   ("enzyme", "Enzyme"), ("puppeteer", "Puppeteer"), ("playwright", "Playwright")]

/-- The `detectTestingFrameworks` scan over the combined dependency maps. -/
def detectTestingFrameworks (deps devDeps : List (String × String)) : List String :=
  testingLibs.filterMap (fun p => if truthyDep deps devDeps p.1 then some p.2 else none)

/-- The `analyzeInstalledDependencies` sub-step.  Its whole body is inside one
try block whose catch only resets `dependenciesInstalled`, so the step never
propagates a rejection. -/
def analyzeInstalledDependenciesStep (fs : FS) (a : Analysis) : Except Analysis Analysis :=
  match pathExistsE fs ["node_modules"] with
  | .error _ => .ok { a with dependenciesInstalled := false }
  | .ok false => .ok { a with dependenciesInstalled := false }
  | .ok true =>
      match pathExistsE fs ["node_modules", "cypress"] with
      | .error _ => .ok { a with dependenciesInstalled := false }
      | .ok cy =>
          let a := { a with dependenciesInstalled := true, cypressInstalled := cy }
          let a :=
            match a.scripts with
            | some scr => { a with executableScripts := analyzeExecutableScripts scr }
            | none => a
          .ok { a with
                testingFrameworks := some (detectTestingFrameworks a.dependencies a.devDependencies) }

/-! ## ProjectAnalyzer: bounded structural scan -/

/-- The `isImportantDirectory` allow-list membership test. -/
def isImportantDirectory (dirName : String) : Bool :=
  ["src", "app", "components", "pages", "public", "tests", "cypress",
   "e2e", "spec", "features"].contains dirName

/-- The `isImportantFile` test: exact-name allow-list or extension allow-list. -/
def isImportantFile (fileName : String) : Bool :=
  ["package.json", "README.md", "index.html", "app.js", "main.js",
   "index.js", "App.jsx", "App.tsx"].contains fileName
  || [".js", ".jsx", ".ts", ".tsx", ".vue", ".svelte"].any
       (fun ext => strEndsWith fileName ext)

mutual

/-- One invocation of `analyzeProjectStructure(repoPath, analysis, cur, depth)`:
returns the entries it pushes, in push order.  The whole body is inside a try
block, so a `readdir` rejection yields no entries. -/
def walkPath (fs : FS) (cur : List String) (depth : Nat) : List StructureEntry :=
  if depth > 3 then []
  else
    match readdirE fs cur with
    | .error _ => []
    | .ok items => walkEntries fs cur depth items
termination_by (4 - depth, 1, 0)

/-- The item loop of `analyzeProjectStructure`.  Each iteration has its own
try block, so a `stat` rejection skips just that item.  The depth test that
the source performs on entry to the recursive call is written here at the call
site (the two placements produce identical results). -/
def walkEntries (fs : FS) (cur : List String) (depth : Nat) (items : List String) :
    List StructureEntry :=
  match items with
  | [] => []
  | item :: rest =>
      (if strStartsWith item "." || item == "node_modules" || item == ".git" then []
       else
         let itemPath := cur ++ [item]
         match statE fs itemPath with
         | .error _ => []
         | .ok .directory =>
             ⟨"directory", itemPath, depth, isImportantDirectory item, none, none⟩ ::
               (if depth < 2 || isImportantDirectory item then
                  if h : depth + 1 > 3 then [] else walkPath fs itemPath (depth + 1)
                else [])
         | .ok (.file sz) =>
             if depth ≤ 2 then
               [⟨"file", itemPath, depth, isImportantFile item, some (extname item), some sz⟩]
             else [])
      ++ walkEntries fs cur depth rest
termination_by (4 - depth, 0, items.length)

end

/-- The `analyzeProjectStructure` sub-step: the top call at the repository
root with empty current path and depth 0; entries are appended to the record.
The step never propagates a rejection. -/
def analyzeProjectStructureStep (fs : FS) (a : Analysis) : Except Analysis Analysis :=
  .ok { a with projectStructure := a.projectStructure ++ walkPath fs [] 0 }

/-! ## ProjectAnalyzer: framework and project-type detection -/

/-- The `frameworkIndicators` table from the `ProjectAnalyzer` constructor, in
its declared order. -/
def frameworkIndicators : List (String × List String) :=
  [("react", ["react", "react-dom", "next", "gatsby"]),
   ("vue", ["vue", "nuxt", "vuex", "vue-router"]),
   ("angular", ["@angular/core", "@angular/common", "rxjs"]),
   ("nextjs", ["next", "react"]),
   ("nuxtjs", ["nuxt", "vue"]),
   ("svelte", ["svelte", "svelte-kit"]),
   ("traditional", ["jquery", "bootstrap", "popper.js"])]

/-- The detection loop of `detectFrameworkAndType`: first table row with a
truthy indicator wins and breaks; with no match the incoming framework value
is kept. -/
def detectLoop (a : Analysis) : List (String × List String) → String
  | [] => a.framework
  | (framework, indicators) :: rest =>
      if indicators.any (fun indicator => truthyHas a indicator) then framework
      else detectLoop a rest

/-- The `determineProjectType` classifier; `structurePaths` is the mapped
`item.path` list the source builds first. -/
def determineProjectType (a : Analysis) : String :=
  let structurePaths := a.projectStructure.map (fun item => pathString item.path)
  if a.framework == "react" then
    if truthyHas a "next" then "Next.js Application"
    else if truthyHas a "gatsby" then "Gatsby Application"
    else if structurePaths.any (fun s => strContains s "pages/" || strContains s "app/") then
      "React SPA"
    else "React Application"
  else if a.framework == "vue" then
    if truthyHas a "nuxt" then "Nuxt.js Application"
    else if structurePaths.any (fun s => strContains s "pages/" || strContains s "views/") then
      "Vue SPA"
    else "Vue Application"
  else if a.framework == "angular" then "Angular Application"
  else if a.framework == "nextjs" then "Next.js SSR Application"
  else if a.framework == "nuxtjs" then "Nuxt.js SSR Application"
  else if a.framework == "svelte" then
    if truthyHas a "svelte-kit" then "SvelteKit Application" else "Svelte Application"
  else
    if structurePaths.any (fun s => strContains s "index.html") then
      "Traditional Web Application"
    else if structurePaths.any (fun s => strContains s ".php") then "PHP Application"
    else "Unknown Project Type"

/-- The synchronous `detectFrameworkAndType` sub-step: run the detection loop,
normalize a remaining "none" to "traditional", then derive the project type
from the updated record. -/
def detectFrameworkAndType (a : Analysis) : Analysis :=
  let fw := detectLoop a frameworkIndicators
  let fw := if fw == "none" then "traditional" else fw
  let a := { a with framework := fw }
  { a with projectType := determineProjectType a }

/-- Wrapper of `detectFrameworkAndType` in the step shape; it is pure and
never throws. -/
def detectFrameworkAndTypeStep (a : Analysis) : Except Analysis Analysis :=
  .ok (detectFrameworkAndType a)

/-! ## ProjectAnalyzer: entry points, existing tests, build tools -/

/-- The fixed candidate list of `findEntryPoints`, in source order. -/
def possibleEntries : List String :=
  ["index.html", "src/index.js", "src/main.js", "src/index.ts",
   "public/index.html", "app/index.html", "src/App.js", "src/App.tsx",
   "index.php", "app.php", "main.js", "app.js", "App.jsx", "App.tsx",
   "src/main.ts", "src/main.tsx"]

/-- The candidate loop of `findEntryPoints`.  The `fs.pathExists` await is not
guarded, so a rejection escapes with the entries pushed so far retained. -/
def findEntryPointsLoop (fs : FS) : List String → Analysis → Except Analysis Analysis
  | [], a => .ok a
  | entry :: rest, a =>
      match pathExistsE fs (splitPath entry) with
      | .error _ => .error a
      | .ok true => findEntryPointsLoop fs rest { a with entryPoints := a.entryPoints ++ [⟨entry, true⟩] }
      | .ok false => findEntryPointsLoop fs rest a

/-- The `findEntryPoints` sub-step. -/
def findEntryPointsStep (fs : FS) (a : Analysis) : Except Analysis Analysis :=
  findEntryPointsLoop fs possibleEntries a

/-- The fixed pattern list of `findExistingTests`, in source order. -/
def testPatternsList : List String :=
  ["**/*.test.js", "**/*.spec.js", "**/*.test.ts", "**/*.spec.ts",
   "cypress/e2e/**/*.js", "cypress/e2e/**/*.ts",
   "tests/**/*.js", "test/**/*.js", "e2e/**/*.js",
   "**/__tests__/**/*.js", "**/__tests__/**/*.ts"]

/-- The approximate matcher of `globFind`: with a `**` in the pattern, strip
the first `**/` and the first remaining `*`, then test substring containment
of the result in the relative path; otherwise strip the first `*` and test
containment in the bare item name. -/
def globMatches (pattern relativePath item : String) : Bool :=
  if strContains pattern "**" then
    let basePattern := replaceFirst pattern "**/" ""
    strContains relativePath (replaceFirst basePattern "*" "")
  else strContains item (replaceFirst pattern "*" "")

mutual

/-- One invocation of the inner `search` of `globFind` on a directory at
`cur`: its try block turns a `readdir` rejection into no results. -/
def searchAt (fs : FS) (pattern : String) (t : FTree) (cur : List String) : List String :=
  match t with
  | .file _ => []
  | .dir items => if fs.readdirFault cur then [] else searchItems fs pattern items cur

/-- The item loop of the inner `search` of `globFind`.  The single try block
wraps the whole loop, so a `stat` rejection abandons the remaining items of
this directory (results already pushed are kept). -/
def searchItems (fs : FS) (pattern : String) (items : List (String × FTree))
    (cur : List String) : List String :=
  match items with
  | [] => []
  | (item, sub) :: rest =>
      if item == "node_modules" || item == ".git" then searchItems fs pattern rest cur
      else if fs.statFault (cur ++ [item]) then []
      else
        (match sub with
         | .dir _ => searchAt fs pattern sub (cur ++ [item])
         | .file _ =>
             if globMatches pattern (pathString (cur ++ [item])) item then
               [pathString (cur ++ [item])]
             else [])
        ++ searchItems fs pattern rest cur

end

/-- The `globFind` helper: search from the repository root; it never throws. -/
def globFind (fs : FS) (pattern : String) : List String :=
  searchAt fs pattern fs.tree []

/-- The `getTestType` classifier. -/
def getTestType (filePath : String) : String :=
  if strContains filePath "cypress" then "e2e"
  else if strContains filePath ".test." || strContains filePath ".spec." then "unit"
  else if strContains filePath "e2e" then "e2e"
  else if strContains filePath "__tests__" then "unit"
  else "unknown"

/-- The `getTestFramework` classifier. -/
def getTestFramework (filePath : String) : String :=
  if strContains filePath "cypress" then "Cypress"
  else if strContains filePath "jest" then "Jest"
  else if strContains filePath "mocha" then "Mocha"
  else if strContains filePath "vitest" then "Vitest"
  else "Unknown"

/-- The `findExistingTests` sub-step: per pattern, run `globFind` (guarded by
a try whose catch just continues) and push a classified record per match. -/
def findExistingTestsStep (fs : FS) (a : Analysis) : Except Analysis Analysis :=
  let found :=
    (testPatternsList.map (fun pattern =>
      (globFind fs pattern).map (fun file =>
        (⟨file, getTestType file, getTestFramework file⟩ : TestFile)))).flatten
  .ok { a with testFiles := a.testFiles ++ found }

/-- The fixed `buildConfigs` table of `analyzeBuildTools`, in source order. -/
def buildConfigs : List (String × String) :=
  [("webpack.config.js", "Webpack"), ("vite.config.js", "Vite"),
   ("vite.config.ts", "Vite"), ("rollup.config.js", "Rollup"),
   ("parcel.config.js", "Parcel"), ("angular.json", "Angular CLI"),
   ("vue.config.js", "Vue CLI"), ("next.config.js", "Next.js"),
   ("nuxt.config.js", "Nuxt.js"), ("svelte.config.js", "Svelte")]

/-- The config-file loop of `analyzeBuildTools`.  The `fs.pathExists` await is
not guarded, so a rejection escapes with the tools pushed so far retained. -/
def buildToolsLoop (fs : FS) : List (String × String) → Analysis → Except Analysis Analysis
  | [], a => .ok a
  | (configFile, toolName) :: rest, a =>
      match pathExistsE fs [configFile] with
      | .error _ => .error a
      | .ok true =>
          buildToolsLoop fs rest { a with buildTools := a.buildTools ++ [⟨toolName, configFile⟩] }
      | .ok false => buildToolsLoop fs rest a

/-- The script scan at the end of `analyzeBuildTools`: build-related manifest
scripts are collected, and the `buildScripts` property is attached only when
at least one was found. -/
def buildScriptsPart (a : Analysis) : Analysis :=
  match a.scripts with
  | none => a
  | some scr =>
      let buildScripts := scr.filter (fun p =>
        strContains p.1 "build" || strContains p.2 "webpack" ||
        strContains p.2 "vite" || strContains p.2 "rollup")
      if buildScripts.length > 0 then { a with buildScripts := some buildScripts } else a

/-- The `analyzeBuildTools` sub-step: reset `buildTools`, run the config-file
loop, then the manifest-script scan. -/
def analyzeBuildToolsStep (fs : FS) (a : Analysis) : Except Analysis Analysis :=
  match buildToolsLoop fs buildConfigs { a with buildTools := [] } with
  | .error b => .error b
  | .ok b => .ok (buildScriptsPart b)

/-! ## ProjectAnalyzer: deepAnalysis -/

/-- The ordered sub-steps of the `deepAnalysis` try block. -/
def deepAnalysisSteps (fs : FS) : List (Analysis → Except Analysis Analysis) :=
  [analyzePackageJsonStep fs, analyzeInstalledDependenciesStep fs,
   analyzeProjectStructureStep fs, detectFrameworkAndTypeStep,
   findEntryPointsStep fs, findExistingTestsStep fs, analyzeBuildToolsStep fs]

/-- Sequencing with the `deepAnalysis` catch: a throw in any sub-step returns
the shared record as mutated up to the throw (the `.error` payload). -/
def runSteps : List (Analysis → Except Analysis Analysis) → Analysis → Analysis
  | [], a => a
  | f :: rest, a =>
      match f a with
      | .ok b => runSteps rest b
      | .error b => b

/-- The `deepAnalysis` entry point: build the initial record (with the run
timestamp) and run the guarded sub-steps; it returns on every oracle. -/
def deepAnalysis (fs : FS) (now : String) : Analysis :=
  runSteps (deepAnalysisSteps fs) (initAnalysis now)

/-- Straight-line run of a step prefix, defined only when no step throws:
used to name the state a given sub-step receives. -/
def runPrefix : List (Analysis → Except Analysis Analysis) → Analysis → Option Analysis
  | [], a => some a
  | f :: rest, a =>
      match f a with
      | .ok b => runPrefix rest b
      | .error _ => none

/-! ## TestStrategy (src/core/TestStrategy.js) -/

/-- One profile of the `strategies` table in the `TestStrategy` constructor. -/
structure StrategyProfile where
  name : String
  priority : List String
  selectors : List String
  patterns : List String
deriving DecidableEq, Repr

/-- The react profile. -/
def reactProfile : StrategyProfile :=
  { name := "React Testing Strategy"
    priority := ["component-testing", "state-management", "router-testing", "form-testing"]
    selectors := ["data-testid", "role", "aria-label", "className"]
    patterns := ["component-rendering", "user-interactions", "state-changes", "api-calls"] }

/-- The vue profile. -/
def vueProfile : StrategyProfile :=
  { name := "Vue Testing Strategy"
    priority := ["component-testing", "vuex-store", "router-testing", "form-validation"]
    selectors := ["data-test", "v-test", "aria-label", "class"]
    patterns := ["component-mounting", "event-handling", "computed-properties", "vuex-actions"] }

/-- The angular profile. -/
def angularProfile : StrategyProfile :=
  { name := "Angular Testing Strategy"
    priority := ["component-testing", "service-testing", "router-testing", "form-testing"]
    selectors := ["data-cy", "data-test", "aria-label"]
    patterns := ["component-creation", "dependency-injection", "router-navigation", "http-calls"] }

/-- The traditional profile. -/
def traditionalProfile : StrategyProfile :=
  { name := "Traditional Web App Strategy"
    priority := ["navigation-testing", "form-testing", "content-validation", "user-flows"]
    selectors := ["id", "class", "name", "data-*"]
    patterns := ["page-navigation", "form-submission", "content-verification", "user-journey"] }

/-- The `strategies` table keyed by framework name. -/
def strategies : List (String × StrategyProfile) :=
  [("react", reactProfile), ("vue", vueProfile),
   ("angular", angularProfile), ("traditional", traditionalProfile)]

/-- The `Strategy` record built by `generateStrategy`: the spread of the base
profile plus the computed fields. -/
structure Strategy where
  name : String
  priority : List String
  selectors : List String
  patterns : List String
  projectType : String
  framework : String
  recommendedSpecs : Nat
  focusAreas : List String
  testPatterns : List String
  selectorStrategy : List String
deriving DecidableEq, Repr

/-- The `calculateRecommendedSpecs` heuristic; JavaScript number arithmetic on
these inputs is exact in ℚ (every floor boundary case is a multiple of one
half, hence binary-representable). -/
def calculateRecommendedSpecs (a : Analysis) : Nat :=
  let baseCount : ℚ := 3
  let structureMultiplier : ℚ := min ((a.projectStructure.length : ℚ) / 50) 3
  let entryPointsBonus : ℚ := (a.entryPoints.length : ℚ) * 0.5
  (max 3 (Int.floor (baseCount + structureMultiplier + entryPointsBonus))).toNat

/-- The `determineFocusAreas` scan: structural substring signals and the
entry-point count, with the fixed default pair when nothing fired. -/
def determineFocusAreas (a : Analysis) : List String :=
  let focusAreas : List String := []
  let focusAreas := focusAreas ++
    (if a.projectStructure.any (fun item => strContains (pathString item.path) "form") then
      ["form-testing"] else [])
  let focusAreas := focusAreas ++
    (if a.projectStructure.any (fun item => strContains (pathString item.path) "auth") then
      ["authentication"] else [])
  let focusAreas := focusAreas ++
    (if a.entryPoints.length > 1 then ["navigation-testing"] else [])
  let focusAreas := focusAreas ++
    (if a.projectStructure.any (fun item => strContains (pathString item.path) "api") then
      ["api-testing"] else [])
  if focusAreas.length = 0 then ["smoke-testing", "critical-flows"] else focusAreas

/-- The `selectTestPatterns` extension of the profile base patterns.  The
axios/fetch test reads `analysis.dependencies` only, with JavaScript
truthiness (an empty version string does not count). -/
def selectTestPatterns (a : Analysis) (basePatterns : List String) : List String :=
  let patterns := basePatterns
  let patterns := patterns ++
    (if truthyDep a.dependencies [] "axios" || truthyDep a.dependencies [] "fetch" then
      ["api-testing"] else [])
  let patterns := patterns ++
    (if a.entryPoints.length > 1 then ["multi-page-testing"] else [])
  let patterns := patterns ++
    (if a.projectStructure.any (fun item => strContains (pathString item.path) "form") then
      ["form-validation"] else [])
  patterns

/-- The `generateStrategy` function: profile selection with the traditional
fallback, then the customized strategy record. -/
def generateStrategy (a : Analysis) : Strategy :=
  let baseStrategy :=
    match lookupAssoc strategies a.framework with
    | some profile => profile
    | none => traditionalProfile
  { name := baseStrategy.name
    priority := baseStrategy.priority
    selectors := baseStrategy.selectors
    patterns := baseStrategy.patterns
    projectType := a.projectType
    framework := a.framework
    recommendedSpecs := calculateRecommendedSpecs a
    focusAreas := determineFocusAreas a
    testPatterns := selectTestPatterns a baseStrategy.patterns
    selectorStrategy := baseStrategy.selectors }

/-! ## TestSpecGenerator (src/generators/TestSpecGenerator.js) -/

/-- The `basic` template string of the `specTemplates` table. -/
def specTemplateBasic : String :=
  "describe(\x27Template Básico\x27, () => \x7b\n  beforeEach(() => \x7b\n    cy.visit(\x27/\x27)\n  \x7d)\n\n  it(\x27debería cargar la página principal\x27, () => \x7b\n    cy.contains(\x27Bienvenido\x27).should(\x27be.visible\x27)\n  \x7d)\n\n  it(\x27debería tener el título correcto\x27, () => \x7b\n    cy.title().should(\x27not.be.empty\x27)\n  \x7d)\n\x7d)"

/-- The `navigation` template string of the `specTemplates` table. -/
def specTemplateNavigation : String :=
  "describe(\x27Navegación\x27, () => \x7b\n  beforeEach(() => \x7b\n    cy.visit(\x27/\x27)\n  \x7d)\n\n  it(\x27debería navegar entre páginas\x27, () => \x7b\n    cy.get(\x27nav a\x27).first().click()\n    cy.url().should(\x27include\x27, \x27/nueva-pagina\x27)\n  \x7d)\n\n  it(\x27debería mantener el estado de navegación\x27, () => \x7b\n    // Test de navegación compleja\n  \x7d)\n\x7d)"

/-- The `forms` template string of the `specTemplates` table. -/
def specTemplateForms : String :=
  "describe(\x27Formularios\x27, () => \x7b\n  beforeEach(() => \x7b\n    cy.visit(\x27/formulario\x27)\n  \x7d)\n\n  it(\x27debería enviar el formulario correctamente\x27, () => \x7b\n    cy.get(\x27#nombre\x27).type(\x27Usuario de Prueba\x27)\n    cy.get(\x27#email\x27).type(\x27test@example.com\x27)\n    cy.get(\x27form\x27).submit()\n    cy.contains(\x27Éxito\x27).should(\x27be.visible\x27)\n  \x7d)\n\n  it(\x27debería mostrar errores de validación\x27, () => \x7b\n    cy.get(\x27form\x27).submit()\n    cy.contains(\x27Campo requerido\x27).should(\x27be.visible\x27)\n  \x7d)\n\x7d)"

/-- The `api` template string of the `specTemplates` table. -/
def specTemplateApi : String :=
  "describe(\x27API Calls\x27, () => \x7b\n  it(\x27debería hacer llamadas API exitosas\x27, () => \x7b\n    cy.intercept(\x27GET\x27, \x27/api/data\x27).as(\x27getData\x27)\n    cy.visit(\x27/\x27)\n    cy.wait(\x27@getData\x27).its(\x27response.statusCode\x27).should(\x27eq\x27, 200)\n  \x7d)\n\n  it(\x27debería manejar errores de API\x27, () => \x7b\n    cy.intercept(\x27GET\x27, \x27/api/data\x27, \x7b statusCode: 500 \x7d).as(\x27serverError\x27)\n    cy.visit(\x27/\x27)\n    cy.wait(\x27@serverError\x27)\n    cy.contains(\x27Error del servidor\x27).should(\x27be.visible\x27)\n  \x7d)\n\x7d)"

/-- One `GeneratedSpec` artifact as pushed by `generateTestSpecs`. -/
structure GeneratedSpec where
  name : String
  type : String
  content : String
  path : String
deriving DecidableEq, Repr

/-- The `selectSpecType` round-robin: `testPatterns[index % length]`.  With an
empty pattern list the source indexes with NaN and yields undefined, which is
modelled as the empty string. -/
def selectSpecType (strategy : Strategy) (index : Nat) : String :=
  let availableTypes := strategy.testPatterns
  let typeIndex := index % availableTypes.length
  availableTypes.getD typeIndex ""

/-- The `templateMap` dispatch of `getBaseTemplate`, with the default
fallback for unmapped types. -/
def getBaseTemplate (specType : String) : String :=
  match lookupAssoc
      [("component-testing", specTemplateBasic),
       ("navigation-testing", specTemplateNavigation),
       ("form-testing", specTemplateForms),
       ("api-testing", specTemplateApi),
       ("user-interactions", specTemplateBasic),
       ("state-changes", specTemplateBasic),
       ("default", specTemplateBasic)] specType with
  | some t => t
  | none => specTemplateBasic

/-- The `customizeTemplate` step: one framework-specific landmark replacement
plus the generated provenance header; `now` is the generation timestamp. -/
def customizeTemplate (template : String) (a : Analysis) (specType : String)
    (_index : Nat) (now : String) : String :=
  let customized :=
    if a.framework == "react" then replaceFirst template "Bienvenido" "React App"
    else if a.framework == "vue" then replaceFirst template "Bienvenido" "Vue App"
    else if a.framework == "angular" then replaceFirst template "Bienvenido" "Angular App"
    else template
  let comment :=
    "// Spec generado automáticamente por Cypress Autonomous Agent\n// Tipo: " ++
    specType ++ "\n// Framework: " ++ a.framework ++ "\n// Proyecto: " ++
    a.projectType ++ "\n// Fecha: " ++ now ++ "\n\n"
  comment ++ customized

/-- The `generateSpecContent` composition. -/
def generateSpecContent (specType : String) (a : Analysis) (index : Nat) (now : String) : String :=
  customizeTemplate (getBaseTemplate specType) a specType index now

/-- The `generateTestSpecs` loop over `[0, recommendedSpecs)`. -/
def generateTestSpecs (a : Analysis) (strategy : Strategy) (now : String) : List GeneratedSpec :=
  let specCount := strategy.recommendedSpecs
  (List.range specCount).map (fun i =>
    let specType := selectSpecType strategy i
    let specContent := generateSpecContent specType a i now
    { name := "generated-spec-" ++ toString (i + 1) ++ ".cy.js"
      type := specType
      content := specContent
      path := "cypress/e2e/generated-spec-" ++ toString (i + 1) ++ ".cy.js" })

/-- The `SpecSummary` record of `generateSpecSummary`. -/
structure SpecSummary where
  totalSpecs : Nat
  specTypes : List (String × Nat)
  estimatedExecutionTime : Nat
  focusAreas : List String
deriving DecidableEq, Repr

/-- Histogram update used by `generateSpecSummary` (`specTypes[t] = old + 1`,
first occurrence appends the key). -/
def bumpType : List (String × Nat) → String → List (String × Nat)
  | [], t => [(t, 1)]
  | (k, v) :: rest, t => if k == t then (k, v + 1) :: rest else (k, v) :: bumpType rest t

/-- The `generateSpecSummary` aggregate. -/
def generateSpecSummary (specs : List GeneratedSpec) (strategy : Strategy) : SpecSummary :=
  { totalSpecs := specs.length
    specTypes := specs.foldl (fun m s => bumpType m s.type) []
    estimatedExecutionTime := specs.length * 30
    focusAreas := strategy.focusAreas }

/-- The `saveSpecsToDisk` boundary operation: the try block creates the
output directory then writes each spec, aborting at the first rejection; the
catch converts any rejection into a false result.  `writeOk` tells which
`fs.writeFile` calls resolve. -/
def saveSpecsToDisk (specs : List GeneratedSpec) (ensureDirOk : Bool)
    (writeOk : String → Bool) : Bool :=
  if ensureDirOk then specs.all (fun spec => writeOk spec.name) else false

/-! ## Pipeline controller (CypressAutonomousAgent) -/

/-- Result of the external `cloneAndAnalyze` collaborator, as the controller
reads it. -/
structure CloneResult where
  success : Bool
  repoPath : String := ""
  error : String := ""
deriving DecidableEq, Repr

/-- Result of the external `checkCypressSetup` collaborator; it guards its own
failures, so the controller receives a record unconditionally. -/
structure CypressCheck where
  hasPackageJson : Bool := false
  hasCypressDependency : Bool := false
  hasCypressConfig : Bool := false
  cypressConfigPath : Option String := none
  scripts : List (String × String) := []
deriving DecidableEq, Repr

/-- The result envelope of `processRepository`; absent properties of the
failure envelope are `none`. -/
structure ProcessResult where
  success : Bool
  repository : String
  error : Option String := none
  analysis : Option Analysis := none
  cypressCheck : Option CypressCheck := none
  strategy : Option Strategy := none
  generatedSpecs : Option (List GeneratedSpec) := none
  specSummary : Option SpecSummary := none
  specsSaved : Option Bool := none
  outputPath : Option String := none
  tempPath : Option String := none
  timestamp : Option String := none

/-- The collaborator outcomes one `processRepository` run consumes. -/
structure AgentEnv where
  tempDir : String
  outputDir : String
  cloneResult : CloneResult
  fs : FS
  cypressCheck : CypressCheck
  ensureDirOk : Bool
  writeOk : String → Bool
  now : String

/-- The `cleanup` routine of the agent (identical in agent.js and the core
controller): remove only a truthy path that extends the temp-repos root; the
try block swallows a removal rejection, so the routine returns on every
input.  The result lists the removal calls that were issued. -/
def cleanupModel (tempDir : String) (tempPath : Option String)
    (_removeFails : Bool) : List String :=
  match tempPath with
  | none => []
  | some p => if p != "" && strStartsWith p tempDir then [p] else []

/-- The try block of `processRepository`.  The only statement that can throw
is the explicit `throw` on a failed clone, before `tempPath` is assigned;
every later stage guards its own failures.  An `.error` payload carries the
message and the value of `tempPath` at the throw. -/
def processRepositoryTry (env : AgentEnv) (githubUrl : String) :
    Except (String × Option String) ProcessResult :=
  if !env.cloneResult.success then
    .error ("Error clonando: " ++ env.cloneResult.error, none)
  else
    let tempPath := env.cloneResult.repoPath
    let analysis := deepAnalysis env.fs env.now
    let cypressCheck := env.cypressCheck
    let strategy := generateStrategy analysis
    let generatedSpecs := generateTestSpecs analysis strategy env.now
    let specsSaved := saveSpecsToDisk generatedSpecs env.ensureDirOk env.writeOk
    let specSummary := generateSpecSummary generatedSpecs strategy
    .ok { success := true
          repository := githubUrl
          analysis := some analysis
          cypressCheck := some cypressCheck
          strategy := some strategy
          generatedSpecs := some generatedSpecs
          specSummary := some specSummary
          specsSaved := some specsSaved
          outputPath := some env.outputDir
          tempPath := some tempPath
          timestamp := some env.now }

/-- The `processRepository` controller: the try block plus the catch, which
runs `cleanup` only when `tempPath` is non-null and returns the failure
envelope.  The second component lists the removal calls cleanup issued. -/
def processRepository (env : AgentEnv) (githubUrl : String) :
    ProcessResult × List String :=
  match processRepositoryTry env githubUrl with
  | .ok r => (r, [])
  | .error (msg, tempPath) =>
      ({ success := false, error := some msg, repository := githubUrl },
       match tempPath with
       | some p => cleanupModel env.tempDir (some p) false
       | none => [])

/-! ## Claim-shaped comparison definitions -/

/-- Modelled from the claim wording of framework detection: the first
framework in table order whose indicator list intersects the KEY SET of the
combined dependency map, with the traditional fallback.  This is the claim
formulation to compare against `detectFrameworkAndType`, which instead tests
JavaScript truthiness of the mapped version string. -/
def specFirstIntersectingFramework (a : Analysis) : String :=
  let combinedKeys := (a.dependencies ++ a.devDependencies).map (fun p => p.1)
  match frameworkIndicators.find?
      (fun p => p.2.any (fun indicator => combinedKeys.contains indicator)) with
  | some p => p.1
  | none => "traditional"

/-- Claim formulation of the detection rule under the truthiness reading:
the first framework in table order with a truthy indicator in the combined
map, with the traditional fallback.  Stated with `List.find?` so that the
loop of the source can be proved equal to it. -/
def firstTruthyFramework (a : Analysis) : String :=
  match frameworkIndicators.find?
      (fun p => p.2.any (fun indicator => truthyHas a indicator)) with
  | some p => p.1
  | none => "traditional"

/-- Fields owned by the sub-steps after position `i` of the `deepAnalysis`
step list, still at their initial-literal defaults.  Step positions:
0 manifest, 1 installed dependencies, 2 structural scan, 3 detection,
4 entry points, 5 existing tests, 6 build tools. -/
def laterFieldsDefault (i : Nat) (a : Analysis) : Prop :=
  (i < 1 → a.dependenciesInstalled = false ∧ a.cypressInstalled = false ∧
    a.executableScripts = [] ∧ a.testingFrameworks = none) ∧
  (i < 2 → a.projectStructure = []) ∧
  (i < 3 → a.framework = "none" ∧ a.projectType = "unknown") ∧
  (i < 4 → a.entryPoints = []) ∧
  (i < 5 → a.testFiles = []) ∧
  (i < 6 → a.buildTools = [] ∧ a.buildScripts = none)

/-- A path segment the structural scan is allowed to traverse: not hidden,
not the dependency cache, not version-control metadata. -/
def goodSeg (seg : String) : Prop :=
  strStartsWith seg "." = false ∧ seg ≠ "node_modules" ∧ seg ≠ ".git"

/-- Concrete strategy used to witness the generator claim. -/
def strategyW : Strategy :=
  { name := "", priority := [], selectors := [], patterns := [],
    projectType := "", framework := "", recommendedSpecs := 3,
    focusAreas := [], testPatterns := ["navigation-testing", "form-testing"],
    selectorStrategy := [] }

/-- Concrete analysis for the react-scenario claim: react dependency, 25
signal-free structure entries, one entry point. -/
def analysisC8 : Analysis :=
  { dependencies := [("react", "^18.0.0")],
    projectStructure := List.replicate 25 ⟨"directory", ["x"], 0, false, none, none⟩,
    entryPoints := [⟨"index.html", true⟩] }

/-- Concrete sparse analysis witnessing the amended react scenario. -/
def analysisW8 : Analysis :=
  { dependencies := [("react", "^18.0.0")],
    entryPoints := [⟨"index.html", true⟩] }

/-- An empty repository checkout with no injected faults and an unreadable
manifest. -/
def fsEmpty : FS :=
  { tree := .dir [], readdirFault := fun _ => false, statFault := fun _ => false,
    pathExistsFault := fun _ => false, readJsonResult := .error () }

/-- The analysis `deepAnalysis` produces on `fsEmpty`. -/
def analysisEmpty : Analysis :=
  { projectType := "Unknown Project Type", framework := "traditional",
    analysisDate := "2024-01-01" }

/-- A controller environment where cloning succeeds and every artifact write
rejects. -/
def envSaveFail : AgentEnv :=
  { tempDir := "temp-repos", outputDir := "generated-specs",
    cloneResult := { success := true, repoPath := "temp-repos/r1" },
    fs := fsEmpty, cypressCheck := {}, ensureDirOk := true,
    writeOk := fun _ => false, now := "2024-01-01" }

/-- An oracle whose `fs.pathExists` calls all reject: the manifest sub-step
throws immediately. -/
def fsPkgFault : FS :=
  { tree := .dir [], readdirFault := fun _ => false, statFault := fun _ => false,
    pathExistsFault := fun _ => true, readJsonResult := .error () }

/-- The safety contract of one emitted structure entry: every path segment is
traversable (not hidden, not node_modules, not .git), files appear at depth 2
at most, no entry lies below depth 3, the recorded depth is the segment count
minus one, and a directory entry below the free-recursion depth has an
`important`-flagged directory at every path position from 2 up to its parent. -/
def entryOk (e : StructureEntry) : Prop :=
  (∀ seg ∈ e.path, goodSeg seg) ∧
  (e.kind = "file" → e.depth ≤ 2) ∧
  e.depth ≤ 3 ∧
  e.path.length = e.depth + 1 ∧
  (e.kind = "directory" → ∀ k, 2 ≤ k → k < e.depth →
    ∃ seg, e.path[k]? = some seg ∧ isImportantDirectory seg = true)

/-- A one-directory checkout used to witness the structural-scan claim. -/
def fsOneDir : FS :=
  { tree := .dir [("src", .dir [])], readdirFault := fun _ => false,
    statFault := fun _ => false, pathExistsFault := fun _ => false,
    readJsonResult := .error () }

/-! ## Theorems -/

/-- Claim C1: for every Analysis, the Strategy Engine computes
`recommendedSpecs = max(3, floor(3 + min(|projectStructure| / 50, 3) +
|entryPoints| * 0.5))`; in particular the result is at least 3 however
sparse the input is. -/
theorem claim_C1 (a : Analysis) :
    (calculateRecommendedSpecs a : ℤ) =
      max 3 (Int.floor ((3 : ℚ) + min ((a.projectStructure.length : ℚ) / 50) 3
        + (a.entryPoints.length : ℚ) * (1 / 2)))
    ∧ 3 ≤ calculateRecommendedSpecs a := by
  constructor
  · unfold calculateRecommendedSpecs
    rw [Int.toNat_of_nonneg (le_trans (by norm_num) (le_max_left 3 _))]
    norm_num
  · have h := le_max_left (3 : ℤ)
      (Int.floor ((3 : ℚ) + min ((a.projectStructure.length : ℚ) / 50) 3
        + (a.entryPoints.length : ℚ) * 0.5))
    show 3 ≤ (max 3 (Int.floor ((3 : ℚ) + min ((a.projectStructure.length : ℚ) / 50) 3
      + (a.entryPoints.length : ℚ) * 0.5))).toNat
    omega

/-- Claim C4: for every Analysis whose framework value is not a key of the
strategy-profile table, the resolved Strategy name is the traditional
profile name "Traditional Web App Strategy". -/
theorem claim_C4 (a : Analysis)
    (h : a.framework ∉ ["react", "vue", "angular", "traditional"]) :
    (generateStrategy a).name = "Traditional Web App Strategy" := by
  have hnone : lookupAssoc strategies a.framework = none := by
    simp only [List.mem_cons, List.not_mem_nil, or_false, not_or] at h
    obtain ⟨h1, h2, h3, h4⟩ := h
    have e1 : ("react" == a.framework) = false := beq_eq_false_iff_ne.mpr (Ne.symm h1)
    have e2 : ("vue" == a.framework) = false := beq_eq_false_iff_ne.mpr (Ne.symm h2)
    have e3 : ("angular" == a.framework) = false := beq_eq_false_iff_ne.mpr (Ne.symm h3)
    have e4 : ("traditional" == a.framework) = false := beq_eq_false_iff_ne.mpr (Ne.symm h4)
    simp [lookupAssoc, strategies, List.find?, e1, e2, e3, e4]
  unfold generateStrategy
  simp [hnone, traditionalProfile]

/-- Witness for claim C4 at the unmapped framework value "svelte". -/
theorem claim_C4_witness :
    ({ framework := "svelte" } : Analysis).framework ∉ ["react", "vue", "angular", "traditional"]
    ∧ (generateStrategy { framework := "svelte" }).name = "Traditional Web App Strategy" :=
  ⟨by decide, claim_C4 { framework := "svelte" } (by decide)⟩

/-- Claim C10: the cleanup routine issues a removal only for a path that is a
string-prefix extension of the temp-repos root and only for the non-null path
it was given; a null path leaves the filesystem untouched, and a failing
removal does not change the outcome (the catch swallows it, so cleanup never
raises). -/
theorem claim_C10 :
    (∀ tempDir tempPath removeFails p,
      p ∈ cleanupModel tempDir tempPath removeFails →
        strStartsWith p tempDir = true ∧ tempPath = some p) ∧
    (∀ tempDir removeFails, cleanupModel tempDir none removeFails = []) ∧
    (∀ tempDir tempPath, cleanupModel tempDir tempPath true =
      cleanupModel tempDir tempPath false) := by
  refine ⟨?_, ?_, ?_⟩
  · intro tempDir tempPath removeFails p hp
    match tempPath with
    | none => simp [cleanupModel] at hp
    | some q =>
        have hp2 : p ∈ (if (q != "" && strStartsWith q tempDir) = true then [q] else []) := hp
        by_cases hc : (q != "" && strStartsWith q tempDir) = true
        · rw [if_pos hc] at hp2
          simp only [List.mem_singleton] at hp2
          subst hp2
          rw [Bool.and_eq_true] at hc
          exact ⟨hc.2, rfl⟩
        · rw [if_neg hc] at hp2
          exact absurd hp2 (List.not_mem_nil p)
  · intro tempDir removeFails
    rfl
  · intro tempDir tempPath
    rfl

/-- Witness for claim C10: a concrete removal inside the temp root. -/
theorem claim_C10_witness :
    "temp-repos/r1" ∈ cleanupModel "temp-repos" (some "temp-repos/r1") false ∧
    strStartsWith "temp-repos/r1" "temp-repos" = true ∧
    some "temp-repos/r1" = some "temp-repos/r1" := by
  have hmem : "temp-repos/r1" ∈ cleanupModel "temp-repos" (some "temp-repos/r1") false := by
    decide
  have h := claim_C10.1 "temp-repos" (some "temp-repos/r1") false "temp-repos/r1" hmem
  exact ⟨hmem, h.1, h.2⟩

/-- Claim C2: on a Strategy with `recommendedSpecs = n` and non-empty
`testPatterns` of length m, the generator produces exactly n specs; the i-th
spec has type `testPatterns[i mod m]` and name `generated-spec-<i+1>.cy.js`. -/
theorem claim_C2 (analysis : Analysis) (strategy : Strategy) (now : String)
    (hm : 0 < strategy.testPatterns.length) :
    (generateTestSpecs analysis strategy now).length = strategy.recommendedSpecs ∧
    ∀ i < strategy.recommendedSpecs,
      ((generateTestSpecs analysis strategy now)[i]?).map GeneratedSpec.type
          = strategy.testPatterns[i % strategy.testPatterns.length]? ∧
      ((generateTestSpecs analysis strategy now)[i]?).map GeneratedSpec.name
          = some ("generated-spec-" ++ toString (i + 1) ++ ".cy.js") := by
  constructor
  · simp [generateTestSpecs]
  · intro i hi
    have hmod : i % strategy.testPatterns.length < strategy.testPatterns.length :=
      Nat.mod_lt i hm
    have hrange : (List.range strategy.recommendedSpecs)[i]? = some i :=
      List.getElem?_range hi
    constructor
    · simp only [generateTestSpecs, List.getElem?_map, hrange, Option.map_some']
      simp only [selectSpecType]
      rw [List.getElem?_eq_getElem hmod, List.getD_eq_getElem?_getD,
        List.getElem?_eq_getElem hmod, Option.getD_some]
    · simp only [generateTestSpecs, List.getElem?_map, hrange, Option.map_some']

/-- Witness for claim C2 on a concrete two-pattern strategy. -/
theorem claim_C2_witness :
    0 < strategyW.testPatterns.length ∧
    ((generateTestSpecs {} strategyW "2024-01-01").length = strategyW.recommendedSpecs ∧
      ∀ i < strategyW.recommendedSpecs,
        ((generateTestSpecs {} strategyW "2024-01-01")[i]?).map GeneratedSpec.type
            = strategyW.testPatterns[i % strategyW.testPatterns.length]? ∧
        ((generateTestSpecs {} strategyW "2024-01-01")[i]?).map GeneratedSpec.name
            = some ("generated-spec-" ++ toString (i + 1) ++ ".cy.js")) :=
  ⟨by decide, claim_C2 {} strategyW "2024-01-01" (by decide)⟩

/-- The detection loop is the first-match search over the indicator table,
with the incoming framework kept when nothing matches. -/
theorem detectLoop_eq_find (a : Analysis) (l : List (String × List String)) :
    detectLoop a l =
      (match l.find? (fun p => p.2.any (fun ind => truthyHas a ind)) with
       | some p => p.1
       | none => a.framework) := by
  induction l with
  | nil => rfl
  | cons hd tl ih =>
      obtain ⟨fw, inds⟩ := hd
      by_cases hc : inds.any (fun ind => truthyHas a ind) = true
      · simp [detectLoop, List.find?, hc]
      · simp only [Bool.not_eq_true] at hc
        simp [detectLoop, List.find?, hc, ih]

/-- Claim C3 (amended): on the pipeline state (incoming framework "none"),
detection yields the first framework in table order having an indicator whose
combined-map entry is truthy (present with a non-empty version string), and
"traditional" when no indicator is truthy.  The original claim spoke of mere
key intersection; the source tests JavaScript truthiness of the version. -/
theorem claim_C3 (a : Analysis) (h : a.framework = "none") :
    (detectFrameworkAndType a).framework = firstTruthyFramework a := by
  show (if detectLoop a frameworkIndicators == "none" then "traditional"
        else detectLoop a frameworkIndicators) = firstTruthyFramework a
  rw [detectLoop_eq_find a frameworkIndicators]
  cases hf : frameworkIndicators.find? (fun p => p.2.any (fun ind => truthyHas a ind)) with
  | none => simp [firstTruthyFramework, hf, h]
  | some p =>
      have hp : p ∈ frameworkIndicators := List.mem_of_find?_eq_some hf
      have hne : p.1 ≠ "none" := by
        fin_cases hp <;> decide
      simp [firstTruthyFramework, hf, beq_eq_false_iff_ne.mpr hne]

/-- Witness for claim C3 at a concrete vuex-only dependency map. -/
theorem claim_C3_witness :
    ({ dependencies := [("vuex", "4.0.0")] } : Analysis).framework = "none" ∧
    (detectFrameworkAndType { dependencies := [("vuex", "4.0.0")] }).framework
      = firstTruthyFramework { dependencies := [("vuex", "4.0.0")] } :=
  ⟨rfl, claim_C3 _ rfl⟩

/-- Counterexample to claim C3 as stated: a dependency map whose react entry
carries an empty version string intersects the key set of the react indicator
list, yet detection yields "traditional" because the empty version is falsy. -/
theorem claim_C3_counterexample :
    (detectFrameworkAndType ({ dependencies := [("react", "")] } : Analysis)).framework
      ≠ specFirstIntersectingFramework ({ dependencies := [("react", "")] } : Analysis) ∧
    (detectFrameworkAndType ({ dependencies := [("react", "")] } : Analysis)).framework
      = "traditional" ∧
    specFirstIntersectingFramework ({ dependencies := [("react", "")] } : Analysis)
      = "react" := by
  decide

/-- Claim C9: on the pipeline state (incoming framework "none"), framework
detection can never yield "nextjs" or "nuxtjs": every nextjs indicator is
also a react indicator and every nuxtjs indicator is also a vue indicator,
and react and vue precede them in the table. -/
theorem claim_C9 (a : Analysis) (h : a.framework = "none") :
    (detectFrameworkAndType a).framework ≠ "nextjs" ∧
    (detectFrameworkAndType a).framework ≠ "nuxtjs" := by
  have hshow : (detectFrameworkAndType a).framework =
      (if detectLoop a frameworkIndicators == "none" then "traditional"
       else detectLoop a frameworkIndicators) := rfl
  rw [hshow]
  simp only [frameworkIndicators, detectLoop, List.any_cons, List.any_nil, Bool.or_false, h]
  split_ifs <;> simp_all

/-- Witness for claim C9 at the default pipeline state. -/
theorem claim_C9_witness :
    ({} : Analysis).framework = "none" ∧
    ((detectFrameworkAndType {}).framework ≠ "nextjs" ∧
      (detectFrameworkAndType {}).framework ≠ "nuxtjs") :=
  ⟨rfl, claim_C9 {} rfl⟩

/-- Claim C8 (amended): an Analysis entering detection (framework "none")
with dependency map exactly react@^18.0.0 and empty dev dependencies, no
structural form/auth/api path signal, exactly one entry point, AND fewer than
25 structure entries yields framework "react", the default focus pair, and
`recommendedSpecs = 3`.  The size bound is forced: at 25 entries the
structure factor already pushes the floor to 4. -/
theorem claim_C8 (a : Analysis)
    (hdep : a.dependencies = [("react", "^18.0.0")])
    (hdev : a.devDependencies = [])
    (hfw : a.framework = "none")
    (hsig : ∀ item ∈ a.projectStructure,
      strContains (pathString item.path) "form" = false ∧
      strContains (pathString item.path) "auth" = false ∧
      strContains (pathString item.path) "api" = false)
    (hep : a.entryPoints.length = 1)
    (hsmall : a.projectStructure.length < 25) :
    (generateStrategy (detectFrameworkAndType a)).framework = "react" ∧
    (generateStrategy (detectFrameworkAndType a)).focusAreas
      = ["smoke-testing", "critical-flows"] ∧
    (generateStrategy (detectFrameworkAndType a)).recommendedSpecs = 3 := by
  have hreact : truthyHas a "react" = true := by
    simp [truthyHas, truthyDep, allDepsLookup, lookupAssoc, hdep, hdev]
  have hps : (detectFrameworkAndType a).projectStructure = a.projectStructure := rfl
  have hent : (detectFrameworkAndType a).entryPoints = a.entryPoints := rfl
  refine ⟨?_, ?_, ?_⟩
  · show (if detectLoop a frameworkIndicators == "none" then "traditional"
          else detectLoop a frameworkIndicators) = "react"
    simp [frameworkIndicators, detectLoop, hreact]
  · show determineFocusAreas (detectFrameworkAndType a) = ["smoke-testing", "critical-flows"]
    have hform : a.projectStructure.any
        (fun item => strContains (pathString item.path) "form") = false :=
      List.any_eq_false.mpr (fun item hi => by simp [(hsig item hi).1])
    have hauth : a.projectStructure.any
        (fun item => strContains (pathString item.path) "auth") = false :=
      List.any_eq_false.mpr (fun item hi => by simp [(hsig item hi).2.1])
    have hapi : a.projectStructure.any
        (fun item => strContains (pathString item.path) "api") = false :=
      List.any_eq_false.mpr (fun item hi => by simp [(hsig item hi).2.2])
    unfold determineFocusAreas
    rw [hps, hent, hform, hauth, hapi, hep]
    simp
  · show calculateRecommendedSpecs (detectFrameworkAndType a) = 3
    unfold calculateRecommendedSpecs
    rw [hps, hent, hep]
    have hn : (a.projectStructure.length : ℚ) < 25 := by exact_mod_cast hsmall
    have h0 : (0 : ℚ) ≤ (a.projectStructure.length : ℚ) / 50 := by positivity
    have hmin : min ((a.projectStructure.length : ℚ) / 50) 3
        = (a.projectStructure.length : ℚ) / 50 := min_eq_left (by linarith)
    rw [hmin]
    have hfl : Int.floor ((3 : ℚ) + (a.projectStructure.length : ℚ) / 50
        + ((1 : ℕ) : ℚ) * 0.5) = 3 := by
      rw [Int.floor_eq_iff]
      constructor
      · push_cast
        linarith
      · push_cast
        norm_num
        linarith
    show (3 ⊔ ⌊(3 : ℚ) + (a.projectStructure.length : ℚ) / 50
      + ((1 : ℕ) : ℚ) * 0.5⌋).toNat = 3
    rw [hfl]
    rfl

/-- Witness for the amended claim C8 at a sparse react project. -/
theorem claim_C8_witness :
    analysisW8.dependencies = [("react", "^18.0.0")] ∧
    analysisW8.devDependencies = [] ∧
    analysisW8.framework = "none" ∧
    (∀ item ∈ analysisW8.projectStructure,
      strContains (pathString item.path) "form" = false ∧
      strContains (pathString item.path) "auth" = false ∧
      strContains (pathString item.path) "api" = false) ∧
    analysisW8.entryPoints.length = 1 ∧
    analysisW8.projectStructure.length < 25 ∧
    ((generateStrategy (detectFrameworkAndType analysisW8)).framework = "react" ∧
      (generateStrategy (detectFrameworkAndType analysisW8)).focusAreas
        = ["smoke-testing", "critical-flows"] ∧
      (generateStrategy (detectFrameworkAndType analysisW8)).recommendedSpecs = 3) :=
  ⟨rfl, rfl, rfl, by decide, rfl, by decide,
    claim_C8 analysisW8 rfl rfl rfl (by decide) rfl (by decide)⟩

/-- Counterexample to claim C8 as stated: with 25 signal-free structure
entries (react dependency, one entry point) the recommended spec count is 4,
not 3, so the scenario does not hold for every matching Analysis. -/
theorem claim_C8_counterexample :
    analysisC8.dependencies = [("react", "^18.0.0")] ∧
    (∀ item ∈ analysisC8.projectStructure,
      strContains (pathString item.path) "form" = false ∧
      strContains (pathString item.path) "auth" = false ∧
      strContains (pathString item.path) "api" = false) ∧
    analysisC8.entryPoints.length = 1 ∧
    (generateStrategy (detectFrameworkAndType analysisC8)).recommendedSpecs = 4 := by
  refine ⟨rfl, by decide, rfl, ?_⟩
  show calculateRecommendedSpecs (detectFrameworkAndType analysisC8) = 4
  unfold calculateRecommendedSpecs
  have hps : (detectFrameworkAndType analysisC8).projectStructure.length = 25 := by decide
  have hent : (detectFrameworkAndType analysisC8).entryPoints.length = 1 := by decide
  rw [hps, hent]
  norm_num
  rfl

/-- Evaluation of `deepAnalysis` on the empty, fault-free checkout. -/
theorem deepAnalysis_fsEmpty : deepAnalysis fsEmpty "2024-01-01" = analysisEmpty := by
  have hwalk : walkPath fsEmpty [] 0 = [] := by
    rw [walkPath]
    simp [readdirE, fsEmpty, lookupTree, walkEntries]
  have e1 : analyzePackageJsonStep fsEmpty (initAnalysis "2024-01-01")
      = .ok (initAnalysis "2024-01-01") := rfl
  have e2 : analyzeInstalledDependenciesStep fsEmpty (initAnalysis "2024-01-01")
      = .ok (initAnalysis "2024-01-01") := rfl
  have e3 : analyzeProjectStructureStep fsEmpty (initAnalysis "2024-01-01")
      = .ok (initAnalysis "2024-01-01") := by
    unfold analyzeProjectStructureStep
    rw [hwalk]
    rfl
  have e4 : detectFrameworkAndTypeStep (initAnalysis "2024-01-01")
      = .ok analysisEmpty := rfl
  have e5 : findEntryPointsStep fsEmpty analysisEmpty = .ok analysisEmpty := rfl
  have e6 : findExistingTestsStep fsEmpty analysisEmpty = .ok analysisEmpty := rfl
  have e7 : analyzeBuildToolsStep fsEmpty analysisEmpty = .ok analysisEmpty := rfl
  unfold deepAnalysis deepAnalysisSteps
  simp only [runSteps, e1, e2, e3, e4, e5, e6, e7]

/-- On the write-failure environment, the save step reports false. -/
theorem envSaveFail_save_false :
    saveSpecsToDisk
      (generateTestSpecs (deepAnalysis envSaveFail.fs envSaveFail.now)
        (generateStrategy (deepAnalysis envSaveFail.fs envSaveFail.now)) envSaveFail.now)
      envSaveFail.ensureDirOk envSaveFail.writeOk = false := by
  have hda : deepAnalysis envSaveFail.fs envSaveFail.now = analysisEmpty :=
    deepAnalysis_fsEmpty
  rw [hda]
  have hc : (generateStrategy analysisEmpty).recommendedSpecs = 3 := by
    show calculateRecommendedSpecs analysisEmpty = 3
    unfold calculateRecommendedSpecs analysisEmpty
    norm_num
    rfl
  unfold generateTestSpecs
  rw [hc]
  decide

/-- Claim C5 (amended): a save failure does not short-circuit the controller.
After a successful clone no later stage throws: the controller returns a
SUCCESS envelope whose `specsSaved` flag is false, and performs no cleanup.
Failure envelopes arise only from the clone stage, before any temporary path
is recorded. -/
theorem claim_C5 (env : AgentEnv) (url : String)
    (hclone : env.cloneResult.success = true)
    (hsave : saveSpecsToDisk
        (generateTestSpecs (deepAnalysis env.fs env.now)
          (generateStrategy (deepAnalysis env.fs env.now)) env.now)
        env.ensureDirOk env.writeOk = false) :
    (processRepository env url).1.success = true ∧
    (processRepository env url).1.specsSaved = some false ∧
    (processRepository env url).2 = [] := by
  unfold processRepository processRepositoryTry
  simp [hclone, hsave]

/-- Witness for the amended claim C5 on the write-failure environment. -/
theorem claim_C5_witness :
    envSaveFail.cloneResult.success = true ∧
    ((processRepository envSaveFail "https://github.com/u/r").1.success = true ∧
      (processRepository envSaveFail "https://github.com/u/r").1.specsSaved = some false ∧
      (processRepository envSaveFail "https://github.com/u/r").2 = []) :=
  ⟨rfl, claim_C5 envSaveFail "https://github.com/u/r" rfl envSaveFail_save_false⟩

/-- Counterexample to claim C5 as stated: on a concrete run whose spec writes
all fail, the controller returns a success envelope carrying
`specsSaved = false` and cleans nothing up, instead of the structured failure
envelope plus cleanup the claim requires. -/
theorem claim_C5_counterexample :
    saveSpecsToDisk
      (generateTestSpecs (deepAnalysis envSaveFail.fs envSaveFail.now)
        (generateStrategy (deepAnalysis envSaveFail.fs envSaveFail.now)) envSaveFail.now)
      envSaveFail.ensureDirOk envSaveFail.writeOk = false ∧
    (processRepository envSaveFail "https://github.com/u/r").1.success = true ∧
    (processRepository envSaveFail "https://github.com/u/r").1.specsSaved = some false ∧
    (processRepository envSaveFail "https://github.com/u/r").2 = [] := by
  refine ⟨envSaveFail_save_false, ?_, ?_, ?_⟩ <;>
    · unfold processRepository processRepositoryTry
      simp only [envSaveFail_save_false]
      rfl

/-- The manifest sub-step can throw only before it writes anything: an error
payload is the unchanged input record. -/
theorem analyzePackageJsonStep_error (fs : FS) (a b : Analysis)
    (h : analyzePackageJsonStep fs a = .error b) : b = a := by
  unfold analyzePackageJsonStep at h
  split at h
  · simp only [Except.error.injEq] at h
    exact h.symm
  · exact Except.noConfusion h
  · split at h <;> exact Except.noConfusion h

/-- The manifest sub-step leaves the later-step fields untouched on success. -/
theorem analyzePackageJsonStep_frame (fs : FS) (a b : Analysis)
    (h : analyzePackageJsonStep fs a = .ok b) :
    b.testFiles = a.testFiles ∧ b.buildTools = a.buildTools ∧
    b.buildScripts = a.buildScripts := by
  unfold analyzePackageJsonStep at h
  split at h
  · exact Except.noConfusion h
  · simp only [Except.ok.injEq] at h
    subst h
    exact ⟨rfl, rfl, rfl⟩
  · split at h
    · simp only [Except.ok.injEq] at h
      subst h
      exact ⟨rfl, rfl, rfl⟩
    · simp only [Except.ok.injEq] at h
      subst h
      exact ⟨rfl, rfl, rfl⟩

/-- The installed-dependency sub-step never throws (its whole body is inside
its own try block). -/
theorem analyzeInstalledDependenciesStep_ne_error (fs : FS) (a b : Analysis) :
    analyzeInstalledDependenciesStep fs a ≠ .error b := by
  intro h
  unfold analyzeInstalledDependenciesStep at h
  split at h
  · exact Except.noConfusion h
  · exact Except.noConfusion h
  · split at h
    · exact Except.noConfusion h
    · exact Except.noConfusion h

/-- The installed-dependency sub-step leaves the later-step fields untouched. -/
theorem analyzeInstalledDependenciesStep_frame (fs : FS) (a b : Analysis)
    (h : analyzeInstalledDependenciesStep fs a = .ok b) :
    b.testFiles = a.testFiles ∧ b.buildTools = a.buildTools ∧
    b.buildScripts = a.buildScripts := by
  unfold analyzeInstalledDependenciesStep at h
  split at h
  · simp only [Except.ok.injEq] at h
    subst h
    exact ⟨rfl, rfl, rfl⟩
  · simp only [Except.ok.injEq] at h
    subst h
    exact ⟨rfl, rfl, rfl⟩
  · split at h
    · simp only [Except.ok.injEq] at h
      subst h
      exact ⟨rfl, rfl, rfl⟩
    · simp only [Except.ok.injEq] at h
      subst h
      cases hs : a.scripts <;> simp [hs]

/-- The structural-scan sub-step never throws. -/
theorem analyzeProjectStructureStep_ne_error (fs : FS) (a b : Analysis) :
    analyzeProjectStructureStep fs a ≠ .error b := by
  simp [analyzeProjectStructureStep]

/-- The structural-scan sub-step touches only `projectStructure`. -/
theorem analyzeProjectStructureStep_frame (fs : FS) (a b : Analysis)
    (h : analyzeProjectStructureStep fs a = .ok b) :
    b.testFiles = a.testFiles ∧ b.buildTools = a.buildTools ∧
    b.buildScripts = a.buildScripts := by
  simp only [analyzeProjectStructureStep, Except.ok.injEq] at h
  subst h
  simp

/-- The detection sub-step never throws. -/
theorem detectFrameworkAndTypeStep_ne_error (a b : Analysis) :
    detectFrameworkAndTypeStep a ≠ .error b := by
  simp [detectFrameworkAndTypeStep]

/-- The detection sub-step touches only `framework` and `projectType`. -/
theorem detectFrameworkAndTypeStep_frame (a b : Analysis)
    (h : detectFrameworkAndTypeStep a = .ok b) :
    b.testFiles = a.testFiles ∧ b.buildTools = a.buildTools ∧
    b.buildScripts = a.buildScripts := by
  simp only [detectFrameworkAndTypeStep, Except.ok.injEq] at h
  subst h
  simp [detectFrameworkAndType]

/-- The existing-test sub-step never throws. -/
theorem findExistingTestsStep_ne_error (fs : FS) (a b : Analysis) :
    findExistingTestsStep fs a ≠ .error b := by
  simp [findExistingTestsStep]

/-- An entry-point loop throw retains the input record except for the entry
points pushed before the rejection. -/
theorem findEntryPointsLoop_error_frame (fs : FS) :
    ∀ (l : List String) (a b : Analysis), findEntryPointsLoop fs l a = .error b →
      b.testFiles = a.testFiles ∧ b.buildTools = a.buildTools ∧
      b.buildScripts = a.buildScripts := by
  intro l
  induction l with
  | nil =>
      intro a b h
      simp [findEntryPointsLoop] at h
  | cons e rest ih =>
      intro a b h
      unfold findEntryPointsLoop at h
      cases hp : pathExistsE fs (splitPath e) with
      | error u =>
          rw [hp] at h
          simp only [Except.error.injEq] at h
          subst h
          exact ⟨rfl, rfl, rfl⟩
      | ok tv =>
          rw [hp] at h
          cases tv
          · simp only at h
            have hr := ih _ b h
            exact hr
          · simp only at h
            have hr := ih _ b h
            exact hr

/-- Claim C6: `deepAnalysis` returns an Analysis on every oracle (the
embedding is total — the catch absorbs every sub-step throw).  When the
sub-step at position i throws after the earlier sub-steps ran clean, the
returned record is exactly the record as mutated up to the throw, and every
field owned by a later sub-step still holds its initial-literal default. -/
theorem claim_C6 (fs : FS) (now : String) (i : Nat)
    (f : Analysis → Except Analysis Analysis) (a b : Analysis)
    (hf : (deepAnalysisSteps fs)[i]? = some f)
    (hrun : runPrefix ((deepAnalysisSteps fs).take i) (initAnalysis now) = some a)
    (herr : f a = .error b) :
    deepAnalysis fs now = b ∧ laterFieldsDefault i b := by
  have hlen : i < 7 := by
    by_contra hc
    push_neg at hc
    have hnone : (deepAnalysisSteps fs)[i]? = none := by
      apply List.getElem?_eq_none
      simpa [deepAnalysisSteps] using hc
    rw [hnone] at hf
    exact Option.noConfusion hf
  interval_cases i
  · -- position 0: the manifest sub-step
    simp only [deepAnalysisSteps, List.getElem?_cons_zero, Option.some.injEq] at hf
    subst hf
    simp only [List.take_zero, runPrefix, Option.some.injEq] at hrun
    subst hrun
    have hb := analyzePackageJsonStep_error fs _ _ herr
    subst hb
    constructor
    · unfold deepAnalysis deepAnalysisSteps
      simp only [runSteps, herr]
    · simp [laterFieldsDefault, initAnalysis]
  · -- position 1 never throws
    simp only [deepAnalysisSteps, List.getElem?_cons_succ, List.getElem?_cons_zero,
      Option.some.injEq] at hf
    subst hf
    exact absurd herr (analyzeInstalledDependenciesStep_ne_error fs a b)
  · -- position 2 never throws
    simp only [deepAnalysisSteps, List.getElem?_cons_succ, List.getElem?_cons_zero,
      Option.some.injEq] at hf
    subst hf
    exact absurd herr (analyzeProjectStructureStep_ne_error fs a b)
  · -- position 3 never throws
    simp only [deepAnalysisSteps, List.getElem?_cons_succ, List.getElem?_cons_zero,
      Option.some.injEq] at hf
    subst hf
    exact absurd herr (detectFrameworkAndTypeStep_ne_error a b)
  · -- position 4: the entry-point sub-step
    simp only [deepAnalysisSteps, List.getElem?_cons_succ, List.getElem?_cons_zero,
      Option.some.injEq] at hf
    subst hf
    simp only [deepAnalysisSteps, List.take_succ_cons, List.take_zero, runPrefix] at hrun
    cases h0 : analyzePackageJsonStep fs (initAnalysis now) with
    | error b0 =>
        simp only [h0] at hrun
        exact Option.noConfusion hrun
    | ok a1 =>
      simp only [h0] at hrun
      cases h1 : analyzeInstalledDependenciesStep fs a1 with
      | error b1 =>
          simp only [h1] at hrun
          exact Option.noConfusion hrun
      | ok a2 =>
        simp only [h1] at hrun
        cases h2 : analyzeProjectStructureStep fs a2 with
        | error b2 =>
            simp only [h2] at hrun
            exact Option.noConfusion hrun
        | ok a3 =>
          simp only [h2] at hrun
          cases h3 : detectFrameworkAndTypeStep a3 with
          | error b3 =>
              simp only [h3] at hrun
              exact Option.noConfusion hrun
          | ok a4 =>
            simp only [h3, Option.some.injEq] at hrun
            subst hrun
            constructor
            · unfold deepAnalysis deepAnalysisSteps
              simp only [runSteps, h0, h1, h2, h3, herr]
            · have herr2 : findEntryPointsLoop fs possibleEntries a4 = .error b := herr
              have hfe := findEntryPointsLoop_error_frame fs possibleEntries a4 b herr2
              have f0 := analyzePackageJsonStep_frame fs _ _ h0
              have f1 := analyzeInstalledDependenciesStep_frame fs _ _ h1
              have f2 := analyzeProjectStructureStep_frame fs _ _ h2
              have f3 := detectFrameworkAndTypeStep_frame _ _ h3
              refine ⟨fun h => absurd h (by omega), fun h => absurd h (by omega),
                fun h => absurd h (by omega), fun h => absurd h (by omega),
                fun _ => ?_, fun _ => ⟨?_, ?_⟩⟩
              · rw [hfe.1, f3.1, f2.1, f1.1, f0.1]
                rfl
              · rw [hfe.2.1, f3.2.1, f2.2.1, f1.2.1, f0.2.1]
                rfl
              · rw [hfe.2.2, f3.2.2, f2.2.2, f1.2.2, f0.2.2]
                rfl
  · -- position 5 never throws
    simp only [deepAnalysisSteps, List.getElem?_cons_succ, List.getElem?_cons_zero,
      Option.some.injEq] at hf
    subst hf
    exact absurd herr (findExistingTestsStep_ne_error fs a b)
  · -- position 6: the build-tool sub-step
    simp only [deepAnalysisSteps, List.getElem?_cons_succ, List.getElem?_cons_zero,
      Option.some.injEq] at hf
    subst hf
    simp only [deepAnalysisSteps, List.take_succ_cons, List.take_zero, runPrefix] at hrun
    cases h0 : analyzePackageJsonStep fs (initAnalysis now) with
    | error b0 =>
        simp only [h0] at hrun
        exact Option.noConfusion hrun
    | ok a1 =>
      simp only [h0] at hrun
      cases h1 : analyzeInstalledDependenciesStep fs a1 with
      | error b1 =>
          simp only [h1] at hrun
          exact Option.noConfusion hrun
      | ok a2 =>
        simp only [h1] at hrun
        cases h2 : analyzeProjectStructureStep fs a2 with
        | error b2 =>
            simp only [h2] at hrun
            exact Option.noConfusion hrun
        | ok a3 =>
          simp only [h2] at hrun
          cases h3 : detectFrameworkAndTypeStep a3 with
          | error b3 =>
              simp only [h3] at hrun
              exact Option.noConfusion hrun
          | ok a4 =>
            simp only [h3] at hrun
            cases h4 : findEntryPointsStep fs a4 with
            | error b4 =>
                simp only [h4] at hrun
                exact Option.noConfusion hrun
            | ok a5 =>
              simp only [h4] at hrun
              cases h5 : findExistingTestsStep fs a5 with
              | error b5 =>
                  simp only [h5] at hrun
                  exact Option.noConfusion hrun
              | ok a6 =>
                simp only [h5, Option.some.injEq] at hrun
                subst hrun
                constructor
                · unfold deepAnalysis deepAnalysisSteps
                  simp only [runSteps, h0, h1, h2, h3, h4, h5, herr]
                · refine ⟨fun h => absurd h (by omega), fun h => absurd h (by omega),
                    fun h => absurd h (by omega), fun h => absurd h (by omega),
                    fun h => absurd h (by omega), fun h => absurd h (by omega)⟩

/-- Witness for claim C6: with every `fs.pathExists` rejecting, the manifest
sub-step throws at once and deep analysis returns the pristine record. -/
theorem claim_C6_witness :
    (deepAnalysisSteps fsPkgFault)[0]? = some (analyzePackageJsonStep fsPkgFault) ∧
    runPrefix ((deepAnalysisSteps fsPkgFault).take 0) (initAnalysis "t")
      = some (initAnalysis "t") ∧
    analyzePackageJsonStep fsPkgFault (initAnalysis "t") = .error (initAnalysis "t") ∧
    (deepAnalysis fsPkgFault "t" = initAnalysis "t" ∧
      laterFieldsDefault 0 (initAnalysis "t")) :=
  ⟨rfl, rfl, rfl, claim_C6 fsPkgFault "t" 0 (analyzePackageJsonStep fsPkgFault)
    (initAnalysis "t") (initAnalysis "t") rfl rfl rfl⟩

/-- Invariant of the bounded structural walk: from a scan position whose
current path is traversable, depth-consistent and important past position 2,
every emitted entry satisfies the safety contract. -/
theorem walk_inv (fs : FS) :
    ∀ (n : Nat) (cur : List String) (depth : Nat), 4 - depth ≤ n → depth ≤ 3 →
      cur.length = depth →
      (∀ seg ∈ cur, goodSeg seg) →
      (∀ k, 2 ≤ k → k < depth →
        ∃ seg, cur[k]? = some seg ∧ isImportantDirectory seg = true) →
      ∀ e ∈ walkPath fs cur depth, entryOk e := by
  intro n
  induction n with
  | zero =>
      intro cur depth hn hd hl hg hi e he
      exact absurd hd (by omega)
  | succ n ih =>
      intro cur depth hn hd hl hg hi e he
      rw [walkPath] at he
      rw [if_neg (by omega : ¬ depth > 3)] at he
      cases hrd : readdirE fs cur with
      | error u =>
          rw [hrd] at he
          simp at he
      | ok items =>
          rw [hrd] at he
          simp only at he
          clear hrd
          revert he
          induction items with
          | nil =>
              intro he
              simp only [walkEntries] at he
              exact absurd he (List.not_mem_nil e)
          | cons item rest ihr =>
              intro he
              simp only [walkEntries] at he
              rw [List.mem_append] at he
              cases he with
              | inr hmem => exact ihr hmem
              | inl hmem =>
                  by_cases hskip :
                      (strStartsWith item "." || item == "node_modules" || item == ".git") = true
                  · rw [if_pos hskip] at hmem
                    exact absurd hmem (List.not_mem_nil e)
                  · rw [if_neg hskip] at hmem
                    simp only [Bool.or_eq_true, not_or, Bool.not_eq_true, beq_eq_false_iff_ne,
                      ne_eq] at hskip
                    have hgood : goodSeg item := ⟨hskip.1.1, hskip.1.2, hskip.2⟩
                    have hsegs : ∀ seg ∈ cur ++ [item], goodSeg seg := by
                      intro seg hseg
                      rw [List.mem_append] at hseg
                      cases hseg with
                      | inl hin => exact hg seg hin
                      | inr hone =>
                          rw [List.mem_singleton] at hone
                          subst hone
                          exact hgood
                    cases hst : statE fs (cur ++ [item]) with
                    | error u =>
                        rw [hst] at hmem
                        exact absurd hmem (List.not_mem_nil e)
                    | ok st =>
                        rw [hst] at hmem
                        cases st with
                        | directory =>
                            simp only at hmem
                            rw [List.mem_cons] at hmem
                            cases hmem with
                            | inl heq =>
                                subst heq
                                refine ⟨hsegs, ?_, hd, by simp [hl], ?_⟩
                                · intro hk
                                  simp at hk
                                · intro _ k hk2 hkd
                                  have hkd2 : k < depth := hkd
                                  have hklt : k < cur.length := by omega
                                  show ∃ seg, (cur ++ [item])[k]? = some seg ∧
                                    isImportantDirectory seg = true
                                  rw [List.getElem?_append_left hklt]
                                  exact hi k hk2 hkd2
                            | inr hrec =>
                                by_cases hcond :
                                    (decide (depth < 2) || isImportantDirectory item) = true
                                · rw [if_pos hcond] at hrec
                                  by_cases hd1 : depth + 1 > 3
                                  · rw [dif_pos hd1] at hrec
                                    exact absurd hrec (List.not_mem_nil e)
                                  · rw [dif_neg hd1] at hrec
                                    refine ih (cur ++ [item]) (depth + 1) (by omega) (by omega)
                                      (by simp [hl]) hsegs ?_ e hrec
                                    intro k hk2 hkd1
                                    by_cases hkc : k < depth
                                    · have hklt : k < cur.length := by omega
                                      rw [List.getElem?_append_left hklt]
                                      exact hi k hk2 hkc
                                    · have hke : k = depth := by omega
                                      have hsome : (cur ++ [item])[k]? = some item := by
                                        rw [hke, ← hl]
                                        exact List.getElem?_concat_length cur item
                                      refine ⟨item, hsome, ?_⟩
                                      have hor : decide (depth < 2) = true ∨
                                          isImportantDirectory item = true := by
                                        simpa [Bool.or_eq_true] using hcond
                                      rcases hor with hlt | himp
                                      · exact absurd (of_decide_eq_true hlt) (by omega)
                                      · exact himp
                                · rw [if_neg hcond] at hrec
                                  exact absurd hrec (List.not_mem_nil e)
                        | file sz =>
                            simp only at hmem
                            by_cases hdf : depth ≤ 2
                            · rw [if_pos hdf] at hmem
                              rw [List.mem_singleton] at hmem
                              subst hmem
                              refine ⟨hsegs, fun _ => hdf, hd, by simp [hl], ?_⟩
                              intro hk
                              simp at hk
                            · rw [if_neg hdf] at hmem
                              exact absurd hmem (List.not_mem_nil e)

/-- Claim C7: every entry the structural scan emits from the repository root
satisfies the safety contract: no excluded or hidden segment anywhere in its
path, files only at depth 2 or less, nothing below the hard cap of 3, and a
beyond-normal-depth directory entry only under important-flagged parents. -/
theorem claim_C7 (fs : FS) (e : StructureEntry) (he : e ∈ walkPath fs [] 0) :
    entryOk e :=
  walk_inv fs 4 [] 0 (by omega) (by omega) rfl
    (by intro seg hseg; exact absurd hseg (List.not_mem_nil seg))
    (by intro k hk2 hk0; omega) e he

/-- Witness for claim C7: the src directory entry emitted on a concrete
checkout satisfies the safety contract. -/
theorem claim_C7_witness :
    (⟨"directory", ["src"], 0, true, none, none⟩ : StructureEntry)
      ∈ walkPath fsOneDir [] 0 ∧
    entryOk ⟨"directory", ["src"], 0, true, none, none⟩ := by
  have hmem : (⟨"directory", ["src"], 0, true, none, none⟩ : StructureEntry)
      ∈ walkPath fsOneDir [] 0 := by
    rw [walkPath]
    simp [readdirE, fsOneDir, lookupTree, lookupAssoc, walkEntries, statE,
      strStartsWith, chPrefix, isImportantDirectory, walkPath]
  exact ⟨hmem, claim_C7 fsOneDir _ hmem⟩
